import Mathlib

/-!
Shallow embedding of the defi-bot arbitrage engine components covered by the
verified claims: the UniswapV2-style AMM math (src/packages/core/src/math.ts),
the gas estimator (src/unnamed/part_011), the Kelly position sizer and the
VaR analytics (src/packages/risk/src/limits.ts), and the stateful risk
controller (src/packages/risk/src/controls.ts).

Modelling conventions.  TypeScript bigint values on the AMM path are
non-negative in every use and are modelled as ℕ; BigInt division on
non-negative operands is exactly ℕ floor division.  JavaScript numbers that
carry USD amounts, probabilities and return samples are modelled as ℚ, the
exact arithmetic the code's formulas denote.  Timestamps in milliseconds are
modelled as ℤ.  Fallible database or provider queries are modelled as
Option-valued inputs to the operation that performs them: none stands for a
thrown error, which the source catches and turns into a no-op (risk
controller) or a fixed fallback (gas estimator).
-/

namespace DefiBot

/-- `getAmountOut` from src/packages/core/src/math.ts: constant-product swap
output with the fee taken from the input side; returns 0 if any operand is
zero.  The call sites use the default `feeBps = 30`; the parameter is kept
explicit. -/
def getAmountOut (amountIn reserveIn reserveOut feeBps : ℕ) : ℕ :=
  if amountIn = 0 ∨ reserveIn = 0 ∨ reserveOut = 0 then 0
  else
    let amountInWithFee := amountIn * (10000 - feeBps)
    amountInWithFee * reserveOut / (reserveIn * 10000 + amountInWithFee)

/-- `getAmountIn` from src/packages/core/src/math.ts: input required for a
desired output, rounded up by one unit; `throw new Error('Insufficient
liquidity')` is modelled as `Except.error`. -/
def getAmountIn (amountOut reserveIn reserveOut feeBps : ℕ) : Except String ℕ :=
  if amountOut = 0 ∨ reserveIn = 0 ∨ reserveOut = 0 then Except.ok 0
  else if reserveOut ≤ amountOut then Except.error "Insufficient liquidity"
  else
    let feeFactor := 10000 - feeBps
    let numerator := reserveIn * amountOut * 10000
    let denominator := (reserveOut - amountOut) * feeFactor
    Except.ok (numerator / denominator + 1)

/-- Fee data returned by `provider.getFeeData()` in src/unnamed/part_011; a
field is `none` when the provider reports null. -/
structure FeeData where
  maxFeePerGas : Option ℕ
  maxPriorityFeePerGas : Option ℕ

/-- `GasEstimate` from src/unnamed/part_011.  `gasLimit` and
`estimatedCostWei` are ℤ because `BigInt(Math.floor(...))` of an arbitrary
multiplier can be negative; the fee fields come from the provider as
non-negative bigints. -/
structure GasEstimate where
  gasLimit : ℤ
  maxFeePerGas : ℕ
  maxPriorityFeePerGas : ℕ
  estimatedCostWei : ℤ
  estimatedCostUsd : ℚ

/-- `ethers.parseUnits(n, 'gwei')` for a whole-number string. -/
def gweiToWei (n : ℕ) : ℕ := n * 1000000000

/-- JavaScript `x || d` on a nullable bigint: both null and 0n select the
default. -/
def orDefaultNonzero (x : Option ℕ) (d : ℕ) : ℕ :=
  match x with
  | none => d
  | some v => if v = 0 then d else v

/-- The fixed conservative fallback of the `catch` branch of
`estimateArbitrageGas` in src/unnamed/part_011: gas limit 400000, 50 gwei max
fee, 2 gwei priority fee, 0.02 ether cost, 40 USD. -/
def fallbackGasEstimate : GasEstimate :=
  { gasLimit := 400000
    maxFeePerGas := gweiToWei 50
    maxPriorityFeePerGas := gweiToWei 2
    estimatedCostWei := 20000000000000000
    estimatedCostUsd := 40 }

/-- `estimateArbitrageGas` from src/unnamed/part_011.  `feeQuery` is the
outcome of `provider.getFeeData()`: `none` when the query throws, which the
source catches, returning `fallbackGasEstimate`.  On success the base
350000-gas estimate is inflated by `multiplier` and priced with the reported
(or default) fees; `formatEther` followed by `Number` is modelled as exact
division by 10^18. -/
def estimateArbitrageGas (feeQuery : Option FeeData) (ethPriceUsd multiplier : ℚ) :
    GasEstimate :=
  match feeQuery with
  | none => fallbackGasEstimate
  | some feeData =>
      let gasLimit : ℤ := ⌊(350000 : ℚ) * multiplier⌋
      let maxFeePerGas := orDefaultNonzero feeData.maxFeePerGas (gweiToWei 30)
      let maxPriorityFeePerGas := orDefaultNonzero feeData.maxPriorityFeePerGas (gweiToWei 2)
      let estimatedCostWei : ℤ := gasLimit * maxFeePerGas
      { gasLimit := gasLimit
        maxFeePerGas := maxFeePerGas
        maxPriorityFeePerGas := maxPriorityFeePerGas
        estimatedCostWei := estimatedCostWei
        estimatedCostUsd := (estimatedCostWei : ℚ) / 1000000000000000000 * ethPriceUsd }

/-- `calculateKellyPositionSize` from src/packages/risk/src/limits.ts: Kelly
fraction clamped into [0, 0.1], applied to the capital. -/
def calculateKellyPositionSize (totalCapital winProbability avgWinAmount avgLossAmount : ℚ) :
    ℚ :=
  if avgLossAmount = 0 ∨ winProbability = 0 then 0
  else
    let kellyFraction :=
      (winProbability * avgWinAmount - (1 - winProbability) * avgLossAmount) / avgLossAmount
    let cappedFraction := max 0 (min (1 / 10) kellyFraction)
    totalCapital * cappedFraction

/-- `[...returns].sort((a, b) => a - b)`: ascending numeric sort. -/
def sortAsc (l : List ℚ) : List ℚ := List.insertionSort (· ≤ ·) l

/-- `calculateVaR` from src/packages/risk/src/limits.ts: the return at rank
`Math.floor((1 - confidenceLevel) * n)` of the ascending-sorted sample; an
out-of-range index yields `undefined`, which `|| 0` turns into 0 (and a
stored 0 stays 0). -/
def calculateVaR (returns : List ℚ) (confidenceLevel : ℚ) : ℚ :=
  if returns = [] then 0
  else
    let sorted := sortAsc returns
    let index : ℤ := ⌊(1 - confidenceLevel) * (returns.length : ℚ)⌋
    if 0 ≤ index ∧ index < (sorted.length : ℤ) then sorted.getD index.toNat 0 else 0

/-- `RiskLimits` from src/packages/risk/src/controls.ts. -/
structure RiskLimits where
  maxDailyLossUsd : ℚ
  maxNotionalUsd : ℚ
  maxTradesPerHour : ℕ
  maxConsecutiveLosses : ℕ
  cooldownAfterLossMs : ℤ
  minTimeBetweenTradesMs : ℤ

/-- `RiskState` from src/packages/risk/src/controls.ts. -/
structure RiskState where
  isKilled : Bool
  dailyPnl : ℚ
  tradesInLastHour : ℕ
  consecutiveLosses : ℕ
  lastTradeTime : Option ℤ
  lastLossTime : Option ℤ
  killReason : Option String

/-- The state built by the `RiskManager` constructor. -/
def initialRiskState : RiskState :=
  { isKilled := false
    dailyPnl := 0
    tradesInLastHour := 0
    consecutiveLosses := 0
    lastTradeTime := none
    lastLossTime := none
    killReason := none }

/-- The limits built by the `RiskManager` constructor: configured loss and
notional caps plus the hard-coded rate, streak, cooldown and spacing
constants. -/
def mkLimits (maxDailyLossUsd maxNotionalUsd : ℚ) : RiskLimits :=
  { maxDailyLossUsd := maxDailyLossUsd
    maxNotionalUsd := maxNotionalUsd
    maxTradesPerHour := 100
    maxConsecutiveLosses := 5
    cooldownAfterLossMs := 60000
    minTimeBetweenTradesMs := 5000 }

/-- `killSwitch(reason)`: latches the kill flag and stores the reason (the
database event write does not touch the state). -/
def killSwitch (reason : String) (st : RiskState) : RiskState :=
  { st with isKilled := true, killReason := some reason }

/-- External observations consumed by a single `canTrade` call: the wall
clock, and the database answers behind `updateDailyPnl` and
`updateTradeCount` (`none` means the query threw; the source catches the
error and leaves the corresponding field unchanged). -/
structure CanTradeEnv where
  now : ℤ
  dbDailyPnl : Option ℚ
  dbTradesInLastHour : Option ℕ

/-- `updateDailyPnl`: overwrites `dailyPnl` with the database's daily
aggregate, or keeps the state when the query fails. -/
def updateDailyPnl (st : RiskState) (env : CanTradeEnv) : RiskState :=
  match env.dbDailyPnl with
  | some v => { st with dailyPnl := v }
  | none => st

/-- `updateTradeCount`: overwrites `tradesInLastHour` with the count of
recent trades inside the trailing hour, or keeps the state when the query
fails. -/
def updateTradeCount (st : RiskState) (env : CanTradeEnv) : RiskState :=
  match env.dbTradesInLastHour with
  | some n => { st with tradesInLastHour := n }
  | none => st

/-- The loss-cooldown guard of `canTrade`: with a recorded last loss, true
while less than `cooldownAfterLossMs` has elapsed. -/
def inCooldown (lim : RiskLimits) (st : RiskState) (now : ℤ) : Bool :=
  match st.lastLossTime with
  | some t => now - t < lim.cooldownAfterLossMs
  | none => false

/-- The inter-trade spacing guard of `canTrade`: with a recorded last trade,
true while less than `minTimeBetweenTradesMs` has elapsed. -/
def tooSoonSinceLastTrade (lim : RiskLimits) (st : RiskState) (now : ℤ) : Bool :=
  match st.lastTradeTime with
  | some t => now - t < lim.minTimeBetweenTradesMs
  | none => false

/-- `canTrade(amountUsd, expectedProfitUsd)` from
src/packages/risk/src/controls.ts, returning the decision together with the
state as left by the call.  Guard order follows the source: kill flag,
notional cap, daily-pnl refresh plus projected-loss check (which itself
pulls the kill switch), consecutive losses, loss cooldown, trade spacing,
trade-count refresh plus hourly cap. -/
def canTrade (lim : RiskLimits) (st : RiskState) (amountUsd expectedProfitUsd : ℚ)
    (env : CanTradeEnv) : Bool × RiskState :=
  if st.isKilled then (false, st)
  else if amountUsd > lim.maxNotionalUsd then (false, st)
  else
    let st1 := updateDailyPnl st env
    if |min 0 (st1.dailyPnl + expectedProfitUsd)| > lim.maxDailyLossUsd then
      (false, killSwitch "Daily loss limit would be exceeded" st1)
    else if lim.maxConsecutiveLosses ≤ st1.consecutiveLosses then (false, st1)
    else if inCooldown lim st1 env.now then (false, st1)
    else if tooSoonSinceLastTrade lim st1 env.now then (false, st1)
    else
      let st2 := updateTradeCount st1 env
      if lim.maxTradesPerHour ≤ st2.tradesInLastHour then (false, st2)
      else (true, st2)

/-- `recordTrade` from src/packages/risk/src/controls.ts: stamps the trade
time, folds the realized profit into `dailyPnl`, updates the loss streak,
then kills when the realized daily loss is at or past the cap (the advisory
risk-event write at three consecutive losses does not touch the state). -/
def recordTrade (lim : RiskLimits) (st : RiskState) (actualProfitUsd : ℚ) (now : ℤ) :
    RiskState :=
  let st1 := { st with lastTradeTime := some now, dailyPnl := st.dailyPnl + actualProfitUsd }
  let st2 :=
    if actualProfitUsd ≤ 0 then
      { st1 with consecutiveLosses := st1.consecutiveLosses + 1, lastLossTime := some now }
    else { st1 with consecutiveLosses := 0 }
  if lim.maxDailyLossUsd ≤ -st2.dailyPnl then killSwitch "Daily loss limit exceeded" st2
  else st2

/-- `resetKillSwitch`: clears the kill flag and reason. -/
def resetKillSwitch (st : RiskState) : RiskState :=
  { st with isKilled := false, killReason := none }

/-- `resetDailyCounters`: zeroes the daily counters at a day boundary. -/
def resetDailyCounters (st : RiskState) : RiskState :=
  { st with dailyPnl := 0, consecutiveLosses := 0, lastLossTime := none }

/-- `calculateConsecutiveLosses` from src/packages/risk/src/controls.ts over
the newest-first profit column of the recent trades: counts until the first
profitable trade. -/
def calculateConsecutiveLosses : List ℚ → ℕ
  | [] => 0
  | p :: rest => if p ≤ 0 then calculateConsecutiveLosses rest + 1 else 0

/-- Fold a chronological list of (realized profit, timestamp) outcomes
through `recordTrade`. -/
def runTrades (lim : RiskLimits) (st : RiskState) (outcomes : List (ℚ × ℤ)) : RiskState :=
  outcomes.foldl (fun s o => recordTrade lim s o.1 o.2) st

/-- Spec-side definition, following the invariant's words: the length of the
maximal trailing run of outcomes with realized profit ≤ 0. -/
def trailingLossRun (outcomes : List ℚ) : ℕ :=
  (outcomes.reverse.takeWhile (fun p => decide (p ≤ 0))).length

/-- C7: when the provider's fee query throws, `estimateArbitrageGas` returns
the fixed conservative fallback estimate (gas limit 400000, max fee 50 gwei,
40 USD) for every price and multiplier, instead of propagating the failure. -/
theorem estimateArbitrageGas_fallback_on_failure :
    ∀ ethPriceUsd multiplier : ℚ,
      estimateArbitrageGas none ethPriceUsd multiplier = fallbackGasEstimate ∧
      (estimateArbitrageGas none ethPriceUsd multiplier).gasLimit = 400000 ∧
      (estimateArbitrageGas none ethPriceUsd multiplier).maxFeePerGas = 50 * 1000000000 ∧
      (estimateArbitrageGas none ethPriceUsd multiplier).estimatedCostUsd = 40 := by
  intro ethPriceUsd multiplier
  exact ⟨rfl, rfl, rfl, rfl⟩

/-- C8 counterexample: on a negative capital the Kelly sizer returns a
negative position, so the claimed unconditional lower bound of 0 fails. -/
theorem calculateKellyPositionSize_negative_capital :
    calculateKellyPositionSize (-100) (9 / 10) 10 1 < 0 := by
  norm_num [calculateKellyPositionSize, min_def, max_def]

/-- C8 (amended with non-negative capital): the Kelly sizer returns exactly 0
when the average loss or the win probability is 0, and for non-negative
capital its result lies between 0 and 10% of the capital, however large the
computed Kelly fraction is. -/
theorem calculateKellyPositionSize_spec
    (totalCapital winProbability avgWinAmount avgLossAmount : ℚ)
    (hcap : 0 ≤ totalCapital) :
    (∀ cap p w : ℚ, calculateKellyPositionSize cap p w 0 = 0) ∧
    (∀ cap w l : ℚ, calculateKellyPositionSize cap 0 w l = 0) ∧
    0 ≤ calculateKellyPositionSize totalCapital winProbability avgWinAmount avgLossAmount ∧
    calculateKellyPositionSize totalCapital winProbability avgWinAmount avgLossAmount ≤
      totalCapital * (1 / 10) := by
  refine ⟨fun cap p w => by simp [calculateKellyPositionSize],
          fun cap w l => by simp [calculateKellyPositionSize], ?_, ?_⟩
  · unfold calculateKellyPositionSize
    split_ifs with h
    · rfl
    · exact mul_nonneg hcap (le_max_left 0 _)
  · unfold calculateKellyPositionSize
    split_ifs with h
    · positivity
    · refine mul_le_mul_of_nonneg_left ?_ hcap
      exact max_le (by norm_num) (min_le_left _ _)

/-- C8 witness: the amended bounds evaluated at capital 1000, win probability
9/10, average win 10, average loss 1. -/
theorem calculateKellyPositionSize_spec_witness :
    (0 : ℚ) ≤ 1000 ∧
    ((∀ cap p w : ℚ, calculateKellyPositionSize cap p w 0 = 0) ∧
     (∀ cap w l : ℚ, calculateKellyPositionSize cap 0 w l = 0) ∧
     0 ≤ calculateKellyPositionSize 1000 (9 / 10) 10 1 ∧
     calculateKellyPositionSize 1000 (9 / 10) 10 1 ≤ 1000 * (1 / 10)) :=
  ⟨by norm_num, calculateKellyPositionSize_spec 1000 (9 / 10) 10 1 (by norm_num)⟩

/-- C10: the daily reset zeroes `dailyPnl`, `consecutiveLosses` and
`lastLossTime` and leaves `isKilled`, `killReason`, `lastTradeTime` and
`tradesInLastHour` untouched, so a killed state stays killed across a
day-boundary reset. -/
theorem resetDailyCounters_spec :
    ∀ st : RiskState,
      (resetDailyCounters st).dailyPnl = 0 ∧
      (resetDailyCounters st).consecutiveLosses = 0 ∧
      (resetDailyCounters st).lastLossTime = none ∧
      (resetDailyCounters st).isKilled = st.isKilled ∧
      (resetDailyCounters st).killReason = st.killReason ∧
      (resetDailyCounters st).lastTradeTime = st.lastTradeTime ∧
      (resetDailyCounters st).tradesInLastHour = st.tradesInLastHour := by
  intro st
  exact ⟨rfl, rfl, rfl, rfl, rfl, rfl, rfl⟩

/-- C9: over a non-empty sample and a confidence level in (0, 1],
`calculateVaR` returns the entry at index `floor((1 - c) * n)` of the
ascending-sorted sample (the sort being an ascending permutation of the
input); in particular the documented 10-sample example at confidence 0.95
returns -0.10. -/
theorem calculateVaR_spec (returns : List ℚ) (c : ℚ)
    (hne : returns ≠ []) (hc0 : 0 < c) (hc1 : c ≤ 1) :
    List.Sorted (· ≤ ·) (sortAsc returns) ∧
    List.Perm (sortAsc returns) returns ∧
    calculateVaR returns c =
      (sortAsc returns).getD (⌊(1 - c) * (returns.length : ℚ)⌋).toNat 0 ∧
    calculateVaR
        [-1/10, -1/20, 1/50, 2/25, 3/20, -1/50, 3/50, -1/100, 1/25, 3/25] (19/20) =
      -1/10 := by
  have hn : 0 < returns.length := List.length_pos.mpr hne
  have hnq : (0 : ℚ) < (returns.length : ℚ) := by exact_mod_cast hn
  refine ⟨List.sorted_insertionSort _ _, List.perm_insertionSort _ _, ?_, ?_⟩
  · have hlen : (sortAsc returns).length = returns.length :=
      (List.perm_insertionSort _ _).length_eq
    have hidx0 : 0 ≤ ⌊(1 - c) * (returns.length : ℚ)⌋ :=
      Int.floor_nonneg.mpr (mul_nonneg (by linarith) (by positivity))
    have hidx1 : ⌊(1 - c) * (returns.length : ℚ)⌋ < ((sortAsc returns).length : ℤ) := by
      rw [hlen]
      refine Int.floor_lt.mpr ?_
      push_cast
      nlinarith
    unfold calculateVaR
    rw [if_neg hne, if_pos ⟨hidx0, hidx1⟩]
  · norm_num [calculateVaR, sortAsc, List.insertionSort, List.orderedInsert,
      List.cons_ne_nil]

/-- C9 witness: the spec instantiated at the documented 10-sample example
with confidence 19/20. -/
theorem calculateVaR_spec_witness :
    ([-1/10, -1/20, 1/50, 2/25, 3/20, -1/50, 3/50, -1/100, 1/25, 3/25] ≠ ([] : List ℚ)) ∧
    (0 : ℚ) < 19/20 ∧ (19/20 : ℚ) ≤ 1 ∧
    calculateVaR
        [-1/10, -1/20, 1/50, 2/25, 3/20, -1/50, 3/50, -1/100, 1/25, 3/25] (19/20) =
      -1/10 :=
  ⟨by simp, by norm_num, by norm_num,
    (calculateVaR_spec
      [-1/10, -1/20, 1/50, 2/25, 3/20, -1/50, 3/50, -1/100, 1/25, 3/25] (19/20)
      (by simp) (by norm_num) (by norm_num)).2.2.2⟩

/-- C5: for positive operands `getAmountOut` is exactly the floored
constant-product formula with the fee applied to the input; it returns 0
whenever any of the amount or reserves is 0; and the output is always
strictly smaller than the output reserve. -/
theorem getAmountOut_spec (amountIn reserveIn reserveOut feeBps : ℕ)
    (h1 : 0 < amountIn) (h2 : 0 < reserveIn) (h3 : 0 < reserveOut) :
    getAmountOut amountIn reserveIn reserveOut feeBps =
      amountIn * (10000 - feeBps) * reserveOut /
        (reserveIn * 10000 + amountIn * (10000 - feeBps)) ∧
    (∀ rIn rOut fee : ℕ, getAmountOut 0 rIn rOut fee = 0) ∧
    (∀ aIn rOut fee : ℕ, getAmountOut aIn 0 rOut fee = 0) ∧
    (∀ aIn rIn fee : ℕ, getAmountOut aIn rIn 0 fee = 0) ∧
    getAmountOut amountIn reserveIn reserveOut feeBps < reserveOut := by
  have hformula : getAmountOut amountIn reserveIn reserveOut feeBps =
      amountIn * (10000 - feeBps) * reserveOut /
        (reserveIn * 10000 + amountIn * (10000 - feeBps)) := by
    unfold getAmountOut
    rw [if_neg (by simp [h1.ne', h2.ne', h3.ne'])]
  refine ⟨hformula, fun rIn rOut fee => by simp [getAmountOut],
    fun aIn rOut fee => by simp [getAmountOut],
    fun aIn rIn fee => by simp [getAmountOut], ?_⟩
  rw [hformula]
  have hD : 0 < reserveIn * 10000 + amountIn * (10000 - feeBps) := by positivity
  rw [Nat.div_lt_iff_lt_mul hD]
  nlinarith [Nat.mul_pos (Nat.mul_pos h3 h2) (show 0 < 10000 by norm_num)]

/-- C5 witness: the formula, zero cases and reserve bound evaluated at
amount 100 against reserves 1000/1000 with a 30 bps fee. -/
theorem getAmountOut_spec_witness :
    0 < 100 ∧ 0 < 1000 ∧ 0 < 1000 ∧
    (getAmountOut 100 1000 1000 30 =
        100 * (10000 - 30) * 1000 / (1000 * 10000 + 100 * (10000 - 30)) ∧
      (∀ rIn rOut fee : ℕ, getAmountOut 0 rIn rOut fee = 0) ∧
      (∀ aIn rOut fee : ℕ, getAmountOut aIn 0 rOut fee = 0) ∧
      (∀ aIn rIn fee : ℕ, getAmountOut aIn rIn 0 fee = 0) ∧
      getAmountOut 100 1000 1000 30 < 1000) :=
  ⟨by decide, by decide, by decide,
    getAmountOut_spec 100 1000 1000 30 (by decide) (by decide) (by decide)⟩

/-- C6 counterexample: with a zero input reserve the zero-operand guard runs
first and `getAmountIn` returns `ok 0` even though the requested output (5)
is at least the output reserve (3), so failure is not exactly characterized
by `amountOut >= reserveOut`. -/
theorem getAmountIn_zero_reserve_no_failure :
    getAmountIn 5 0 3 30 = Except.ok 0 ∧ (3 : ℕ) ≤ 5 := by
  exact ⟨rfl, by decide⟩

/-- C6 (amended for the zero-operand guard): `getAmountIn` fails with
insufficient liquidity exactly when all three of the requested output and
the two reserves are non-zero and the requested output is at least the
output reserve; and for positive reserves, a fee below 100% and a requested
`0 < amountOut < reserveOut` it returns the rounded-up input, which fed back
through `getAmountOut` with the same reserves and fee yields at least the
requested output. -/
theorem getAmountIn_spec (amountOut reserveIn reserveOut feeBps : ℕ)
    (hfee : feeBps < 10000) (hrin : 0 < reserveIn)
    (h0 : 0 < amountOut) (hlt : amountOut < reserveOut) :
    (∀ aOut rIn rOut fee : ℕ,
        getAmountIn aOut rIn rOut fee = Except.error "Insufficient liquidity" ↔
          aOut ≠ 0 ∧ rIn ≠ 0 ∧ rOut ≠ 0 ∧ rOut ≤ aOut) ∧
    getAmountIn amountOut reserveIn reserveOut feeBps =
      Except.ok
        (reserveIn * amountOut * 10000 / ((reserveOut - amountOut) * (10000 - feeBps)) + 1) ∧
    amountOut ≤
      getAmountOut
        (reserveIn * amountOut * 10000 / ((reserveOut - amountOut) * (10000 - feeBps)) + 1)
        reserveIn reserveOut feeBps := by
  have hro : 0 < reserveOut := lt_trans h0 hlt
  refine ⟨?_, ?_, ?_⟩
  · intro aOut rIn rOut fee
    unfold getAmountIn
    split_ifs with hz hge
    · simp only [reduceCtorEq, false_iff]
      tauto
    · push_neg at hz
      simp only [true_iff]
      exact ⟨hz.1, hz.2.1, hz.2.2, hge⟩
    · simp only [reduceCtorEq, false_iff]
      tauto
  · unfold getAmountIn
    rw [if_neg (by simp [h0.ne', hrin.ne', hro.ne']), if_neg (by omega)]
  · have hphi : 0 < 10000 - feeBps := by omega
    have hM : 0 < (reserveOut - amountOut) * (10000 - feeBps) :=
      Nat.mul_pos (by omega) hphi
    have hkey : reserveIn * amountOut * 10000 <
        (reserveIn * amountOut * 10000 / ((reserveOut - amountOut) * (10000 - feeBps)) + 1) *
          ((reserveOut - amountOut) * (10000 - feeBps)) := by
      have hdm := Nat.div_add_mod (reserveIn * amountOut * 10000)
        ((reserveOut - amountOut) * (10000 - feeBps))
      have hml := Nat.mod_lt (reserveIn * amountOut * 10000) hM
      nlinarith [hdm, hml]
    unfold getAmountOut
    rw [if_neg (by simp [hrin.ne', hro.ne'])]
    have hD : 0 <
        reserveIn * 10000 +
          (reserveIn * amountOut * 10000 / ((reserveOut - amountOut) * (10000 - feeBps)) + 1) *
            (10000 - feeBps) := by positivity
    rw [Nat.le_div_iff_mul_le hD]
    zify [hlt.le, hfee.le] at hkey ⊢
    nlinarith [hkey]

/-- C6 witness: the failure characterization and the round trip evaluated at
requested output 100 against reserves 1000/1000 with a 30 bps fee. -/
theorem getAmountIn_spec_witness :
    30 < 10000 ∧ 0 < 1000 ∧ 0 < 100 ∧ 100 < 1000 ∧
    ((∀ aOut rIn rOut fee : ℕ,
        getAmountIn aOut rIn rOut fee = Except.error "Insufficient liquidity" ↔
          aOut ≠ 0 ∧ rIn ≠ 0 ∧ rOut ≠ 0 ∧ rOut ≤ aOut) ∧
     getAmountIn 100 1000 1000 30 =
       Except.ok (1000 * 100 * 10000 / ((1000 - 100) * (10000 - 30)) + 1) ∧
     100 ≤
       getAmountOut (1000 * 100 * 10000 / ((1000 - 100) * (10000 - 30)) + 1)
         1000 1000 30) :=
  ⟨by decide, by decide, by decide, by decide,
    getAmountIn_spec 100 1000 1000 30 (by decide) (by decide) (by decide) (by decide)⟩

/-- One `recordTrade` call moves the loss streak exactly as the source does:
non-positive profit extends it by one, positive profit clears it (the kill
check afterwards does not touch the counter). -/
theorem recordTrade_consecutiveLosses (lim : RiskLimits) (st : RiskState) (p : ℚ) (t : ℤ) :
    (recordTrade lim st p t).consecutiveLosses =
      if p ≤ 0 then st.consecutiveLosses + 1 else 0 := by
  simp only [recordTrade, killSwitch]
  split_ifs <;> rfl

/-- Appending one outcome to the history extends or clears the trailing loss
run according to the sign of that outcome. -/
theorem trailingLossRun_concat (l : List ℚ) (x : ℚ) :
    trailingLossRun (l ++ [x]) = if x ≤ 0 then trailingLossRun l + 1 else 0 := by
  unfold trailingLossRun
  rw [List.reverse_append]
  by_cases hx : x ≤ 0 <;> simp [hx, List.takeWhile_cons]

/-- C3: starting from the constructor state, any chronological sequence of
`recordTrade` outcomes leaves `consecutiveLosses` equal to the length of the
maximal trailing run of outcomes with realized profit ≤ 0 (break-even counts
as a loss); the documented sequences `[+2, -1, -2, -1.5]` and `[-1, 0, -1]`
both leave the counter at 3; and any profitable outcome resets it to 0. -/
theorem consecutiveLosses_trailing_run (lim : RiskLimits) :
    (∀ outcomes : List (ℚ × ℤ),
        (runTrades lim initialRiskState outcomes).consecutiveLosses =
          trailingLossRun (outcomes.map Prod.fst)) ∧
    (runTrades lim initialRiskState
        [(2, 0), (-1, 1), (-2, 2), (-3/2, 3)]).consecutiveLosses = 3 ∧
    (runTrades lim initialRiskState [(-1, 0), (0, 1), (-1, 2)]).consecutiveLosses = 3 ∧
    (∀ (st : RiskState) (p : ℚ) (t : ℤ),
        0 < p → (recordTrade lim st p t).consecutiveLosses = 0) := by
  have main : ∀ outcomes : List (ℚ × ℤ),
      (runTrades lim initialRiskState outcomes).consecutiveLosses =
        trailingLossRun (outcomes.map Prod.fst) := by
    intro outcomes
    induction outcomes using List.reverseRecOn with
    | nil => rfl
    | append_singleton l x ih =>
        have hfold : runTrades lim initialRiskState (l ++ [x]) =
            recordTrade lim (runTrades lim initialRiskState l) x.1 x.2 := by
          simp [runTrades, List.foldl_append]
        rw [hfold, recordTrade_consecutiveLosses, List.map_append, List.map_cons,
          List.map_nil, trailingLossRun_concat, ih]
  refine ⟨main, ?_, ?_, fun st p t hp => by
    rw [recordTrade_consecutiveLosses, if_neg (not_le.mpr hp)]⟩
  · rw [main]
    norm_num [trailingLossRun, List.takeWhile_cons]
  · rw [main]
    norm_num [trailingLossRun, List.takeWhile_cons]

/-- C3 witness: a profitable outcome recorded over the constructor state
clears the streak. -/
theorem consecutiveLosses_trailing_run_witness :
    (0 : ℚ) < 1 ∧
    (recordTrade (mkLimits 100 1000) initialRiskState 1 0).consecutiveLosses = 0 :=
  ⟨by norm_num,
    (consecutiveLosses_trailing_run (mkLimits 100 1000)).2.2.2 initialRiskState 1 0
      (by norm_num)⟩

/-- The daily-pnl refresh never touches the kill flag. -/
theorem updateDailyPnl_isKilled (st : RiskState) (env : CanTradeEnv) :
    (updateDailyPnl st env).isKilled = st.isKilled := by
  unfold updateDailyPnl
  cases env.dbDailyPnl <;> rfl

/-- The trade-count refresh never touches the kill flag. -/
theorem updateTradeCount_isKilled (st : RiskState) (env : CanTradeEnv) :
    (updateTradeCount st env).isKilled = st.isKilled := by
  unfold updateTradeCount
  cases env.dbTradesInLastHour <;> rfl

/-- The source's `Math.abs(Math.min(0, x)) > m` test is, for a non-negative
cap `m`, the strict comparison `x < -m`. -/
theorem abs_min_gt_iff (x m : ℚ) (hm : 0 ≤ m) : |min 0 x| > m ↔ x < -m := by
  rcases le_or_lt 0 x with hx | hx
  · rw [min_eq_left hx, abs_zero]
    constructor <;> intro h <;> linarith
  · rw [min_eq_right hx.le, abs_of_neg hx]
    constructor <;> intro h <;> linarith

/-- C1 counterexample: with a 100 USD cap, a projected daily pnl of exactly
-100 (at the ceiling) does not kill — `canTrade` even authorizes the trade —
because the source compares the projected loss strictly. -/
theorem canTrade_boundary_no_kill :
    (canTrade (mkLimits 100 1000) initialRiskState 10 (-100)
        ⟨0, none, none⟩).1 = true ∧
    (canTrade (mkLimits 100 1000) initialRiskState 10 (-100)
        ⟨0, none, none⟩).2.isKilled = false ∧
    initialRiskState.dailyPnl + (-100) ≤ -(mkLimits 100 1000).maxDailyLossUsd := by
  refine ⟨?_, ?_, by norm_num [initialRiskState, mkLimits]⟩ <;>
    norm_num [canTrade, mkLimits, initialRiskState, updateDailyPnl, updateTradeCount,
      inCooldown, tooSoonSinceLastTrade]

/-- C1 (amended for the strict projected check): for a live state within the
notional cap and a non-negative loss cap, the `canTrade` call kills — itself
transitioning the state, returning false and recording the reason — exactly
when the projected daily pnl falls strictly below `-maxDailyLossUsd`;
`recordTrade` kills exactly when the realized daily pnl lands at or below
`-maxDailyLossUsd` (and never clears an existing kill). -/
theorem killThreshold_spec (lim : RiskLimits) (st : RiskState)
    (amountUsd expectedProfitUsd : ℚ) (env : CanTradeEnv)
    (hk : st.isKilled = false) (hm : 0 ≤ lim.maxDailyLossUsd)
    (hn : ¬ amountUsd > lim.maxNotionalUsd) :
    ((canTrade lim st amountUsd expectedProfitUsd env).2.isKilled = true ↔
        (updateDailyPnl st env).dailyPnl + expectedProfitUsd < -lim.maxDailyLossUsd) ∧
    ((updateDailyPnl st env).dailyPnl + expectedProfitUsd < -lim.maxDailyLossUsd →
        (canTrade lim st amountUsd expectedProfitUsd env).1 = false ∧
        (canTrade lim st amountUsd expectedProfitUsd env).2.killReason =
          some "Daily loss limit would be exceeded") ∧
    (∀ (st' : RiskState) (p : ℚ) (t : ℤ),
        (recordTrade lim st' p t).isKilled =
          (st'.isKilled || decide (st'.dailyPnl + p ≤ -lim.maxDailyLossUsd))) := by
  have hiff := abs_min_gt_iff ((updateDailyPnl st env).dailyPnl + expectedProfitUsd)
    lim.maxDailyLossUsd hm
  refine ⟨?_, ?_, ?_⟩
  · simp only [canTrade]
    rw [if_neg (by simp [hk]), if_neg hn]
    split_ifs with h1 h2 h3 h4 h5 <;>
      simp only [killSwitch, updateDailyPnl_isKilled, updateTradeCount_isKilled, hk]
    · simpa using hiff.mp h1
    all_goals simpa using fun hx => h1 (hiff.mpr hx)
  · intro hx
    have h1 := hiff.mpr hx
    simp only [canTrade]
    rw [if_neg (by simp [hk]), if_neg hn, if_pos h1]
    exact ⟨rfl, rfl⟩
  · intro st' p t
    have hd : (recordTrade lim st' p t).isKilled =
        if lim.maxDailyLossUsd ≤ -(st'.dailyPnl + p) then true else st'.isKilled := by
      simp only [recordTrade, killSwitch]
      by_cases hp : p ≤ 0 <;> simp [hp] <;> split_ifs with h <;> simp [h]
    rw [hd]
    by_cases hkill : lim.maxDailyLossUsd ≤ -(st'.dailyPnl + p)
    · rw [if_pos hkill]
      simp [show st'.dailyPnl + p ≤ -lim.maxDailyLossUsd by linarith]
    · rw [if_neg hkill]
      simp [show ¬(st'.dailyPnl + p ≤ -lim.maxDailyLossUsd) from
        fun h => hkill (by linarith)]

/-- C1 witness: the amended kill thresholds evaluated with a 100 USD cap, a
10 USD notional and a projected -200 USD outcome from the constructor
state. -/
theorem killThreshold_spec_witness :
    initialRiskState.isKilled = false ∧
    (0 : ℚ) ≤ (mkLimits 100 1000).maxDailyLossUsd ∧
    ¬ (10 : ℚ) > (mkLimits 100 1000).maxNotionalUsd ∧
    (((canTrade (mkLimits 100 1000) initialRiskState 10 (-200)
          ⟨0, none, none⟩).2.isKilled = true ↔
        (updateDailyPnl initialRiskState ⟨0, none, none⟩).dailyPnl + (-200) <
          -(mkLimits 100 1000).maxDailyLossUsd) ∧
      ((updateDailyPnl initialRiskState ⟨0, none, none⟩).dailyPnl + (-200) <
          -(mkLimits 100 1000).maxDailyLossUsd →
        (canTrade (mkLimits 100 1000) initialRiskState 10 (-200) ⟨0, none, none⟩).1 =
          false ∧
        (canTrade (mkLimits 100 1000) initialRiskState 10 (-200)
            ⟨0, none, none⟩).2.killReason = some "Daily loss limit would be exceeded") ∧
      (∀ (st' : RiskState) (p : ℚ) (t : ℤ),
        (recordTrade (mkLimits 100 1000) st' p t).isKilled =
          (st'.isKilled ||
            decide (st'.dailyPnl + p ≤ -(mkLimits 100 1000).maxDailyLossUsd)))) :=
  ⟨rfl, by norm_num [mkLimits], by norm_num [mkLimits],
    killThreshold_spec (mkLimits 100 1000) initialRiskState 10 (-200) ⟨0, none, none⟩
      rfl (by norm_num [mkLimits]) (by norm_num [mkLimits])⟩

/-- C2: the kill switch latches — a killed state makes `canTrade` return
false with the state untouched for every argument; `recordTrade` and the
daily reset never clear the flag and only `resetKillSwitch` clears it (also
clearing the reason); and with a 100 USD cap, recording a -100 outcome from
the constructor state kills with a populated reason, after which every
`canTrade` call returns false. -/
theorem killSwitch_latches (lim : RiskLimits) (st : RiskState) (a e p : ℚ)
    (env : CanTradeEnv) (t : ℤ) (hk : st.isKilled = true) :
    canTrade lim st a e env = (false, st) ∧
    (recordTrade lim st p t).isKilled = true ∧
    (resetDailyCounters st).isKilled = true ∧
    (resetKillSwitch st).isKilled = false ∧
    (resetKillSwitch st).killReason = none ∧
    (recordTrade (mkLimits 100 1000) initialRiskState (-100) 0).isKilled = true ∧
    (recordTrade (mkLimits 100 1000) initialRiskState (-100) 0).killReason ≠ none ∧
    ∀ (a' e' : ℚ) (env' : CanTradeEnv),
      (canTrade (mkLimits 100 1000)
          (recordTrade (mkLimits 100 1000) initialRiskState (-100) 0) a' e' env').1 =
        false := by
  have hcan : ∀ (lim' : RiskLimits) (st' : RiskState) (a' e' : ℚ) (env' : CanTradeEnv),
      st'.isKilled = true → canTrade lim' st' a' e' env' = (false, st') := by
    intro lim' st' a' e' env' h
    unfold canTrade
    rw [if_pos h]
  have hrec : (recordTrade (mkLimits 100 1000) initialRiskState (-100) 0).isKilled =
      true := by
    norm_num [recordTrade, killSwitch, initialRiskState, mkLimits]
  have hreason : (recordTrade (mkLimits 100 1000) initialRiskState (-100) 0).killReason ≠
      none := by
    norm_num [recordTrade, killSwitch, initialRiskState, mkLimits]
    exact Option.some_ne_none _
  have hrk : (recordTrade lim st p t).isKilled = true := by
    simp only [recordTrade, killSwitch]
    split_ifs <;> simp [hk]
  exact ⟨hcan lim st a e env hk, hrk, by simp [resetDailyCounters, hk], rfl, rfl, hrec,
    hreason, fun a' e' env' => by rw [hcan _ _ a' e' env' hrec]⟩

/-- C2 witness: the latching behavior evaluated on a manually killed
constructor state with a 100 USD cap. -/
theorem killSwitch_latches_witness :
    (killSwitch "manual" initialRiskState).isKilled = true ∧
    (canTrade (mkLimits 100 1000) (killSwitch "manual" initialRiskState) 1 1
        ⟨0, none, none⟩ = (false, killSwitch "manual" initialRiskState) ∧
     (recordTrade (mkLimits 100 1000) (killSwitch "manual" initialRiskState) (-1)
        0).isKilled = true ∧
     (resetDailyCounters (killSwitch "manual" initialRiskState)).isKilled = true ∧
     (resetKillSwitch (killSwitch "manual" initialRiskState)).isKilled = false ∧
     (resetKillSwitch (killSwitch "manual" initialRiskState)).killReason = none ∧
     (recordTrade (mkLimits 100 1000) initialRiskState (-100) 0).isKilled = true ∧
     (recordTrade (mkLimits 100 1000) initialRiskState (-100) 0).killReason ≠ none ∧
     ∀ (a' e' : ℚ) (env' : CanTradeEnv),
       (canTrade (mkLimits 100 1000)
           (recordTrade (mkLimits 100 1000) initialRiskState (-100) 0) a' e' env').1 =
         false) :=
  ⟨rfl,
    killSwitch_latches (mkLimits 100 1000) (killSwitch "manual" initialRiskState) 1 1 (-1)
      ⟨0, none, none⟩ 0 rfl⟩

/-- The daily-pnl refresh touches only `dailyPnl`, and only to the database
value. -/
theorem updateDailyPnl_frame (st : RiskState) (env : CanTradeEnv) :
    (updateDailyPnl st env).killReason = st.killReason ∧
    (updateDailyPnl st env).consecutiveLosses = st.consecutiveLosses ∧
    (updateDailyPnl st env).lastTradeTime = st.lastTradeTime ∧
    (updateDailyPnl st env).lastLossTime = st.lastLossTime ∧
    ((updateDailyPnl st env).dailyPnl = st.dailyPnl ∨
      env.dbDailyPnl = some ((updateDailyPnl st env).dailyPnl)) ∧
    (updateDailyPnl st env).tradesInLastHour = st.tradesInLastHour := by
  unfold updateDailyPnl
  cases h : env.dbDailyPnl <;> simp [h]

/-- The trade-count refresh touches only `tradesInLastHour`, and only to the
database value. -/
theorem updateTradeCount_frame (st : RiskState) (env : CanTradeEnv) :
    (updateTradeCount st env).killReason = st.killReason ∧
    (updateTradeCount st env).consecutiveLosses = st.consecutiveLosses ∧
    (updateTradeCount st env).lastTradeTime = st.lastTradeTime ∧
    (updateTradeCount st env).lastLossTime = st.lastLossTime ∧
    (updateTradeCount st env).dailyPnl = st.dailyPnl ∧
    ((updateTradeCount st env).tradesInLastHour = st.tradesInLastHour ∨
      env.dbTradesInLastHour = some ((updateTradeCount st env).tradesInLastHour)) := by
  unfold updateTradeCount
  cases h : env.dbTradesInLastHour <;> simp [h]

/-- A failed daily-pnl query leaves the state untouched. -/
theorem updateDailyPnl_none (st : RiskState) (env : CanTradeEnv)
    (h : env.dbDailyPnl = none) : updateDailyPnl st env = st := by
  unfold updateDailyPnl
  rw [h]

/-- A failed trade-count query leaves the state untouched. -/
theorem updateTradeCount_none (st : RiskState) (env : CanTradeEnv)
    (h : env.dbTradesInLastHour = none) : updateTradeCount st env = st := by
  unfold updateTradeCount
  rw [h]

/-- Every `canTrade` call leaves the state in one of four shapes: untouched,
killed after the pnl refresh, just pnl-refreshed, or pnl- and count-
refreshed. -/
theorem canTrade_snd_cases (lim : RiskLimits) (st : RiskState) (a e : ℚ)
    (env : CanTradeEnv) :
    (canTrade lim st a e env).2 = st ∨
    (canTrade lim st a e env).2 =
      killSwitch "Daily loss limit would be exceeded" (updateDailyPnl st env) ∨
    (canTrade lim st a e env).2 = updateDailyPnl st env ∨
    (canTrade lim st a e env).2 = updateTradeCount (updateDailyPnl st env) env := by
  simp only [canTrade]
  split_ifs <;> simp

/-- C4 counterexample: a call rejected by the consecutive-losses guard (not
by the daily-loss guard — the state stays unkilled) still mutates the state:
the daily-pnl refresh ran first and overwrote `dailyPnl` with the database
value 5, while the state held 0. -/
theorem canTrade_reject_mutates_state :
    (canTrade (mkLimits 100 1000) { initialRiskState with consecutiveLosses := 5 } 10 0
        ⟨0, some 5, some 0⟩).1 = false ∧
    (canTrade (mkLimits 100 1000) { initialRiskState with consecutiveLosses := 5 } 10 0
        ⟨0, some 5, some 0⟩).2.isKilled = false ∧
    (canTrade (mkLimits 100 1000) { initialRiskState with consecutiveLosses := 5 } 10 0
        ⟨0, some 5, some 0⟩).2.dailyPnl = 5 ∧
    ({ initialRiskState with consecutiveLosses := 5 } : RiskState).dailyPnl = 0 := by
  norm_num [canTrade, mkLimits, initialRiskState, updateDailyPnl, updateTradeCount,
    inCooldown, tooSoonSinceLastTrade, killSwitch]

/-- C4 (amended for the database refreshes): a `canTrade` call that returns
false without flipping the kill flag leaves `killReason`,
`consecutiveLosses`, `lastTradeTime` and `lastLossTime` unchanged;
`dailyPnl` and `tradesInLastHour` are either unchanged or equal to the fresh
database values; and when both database queries fail (so the refreshes are
no-ops) the state is fully unchanged. -/
theorem canTrade_reject_frame (lim : RiskLimits) (st : RiskState)
    (amountUsd expectedProfitUsd : ℚ) (env : CanTradeEnv)
    (_h1 : (canTrade lim st amountUsd expectedProfitUsd env).1 = false)
    (h2 : (canTrade lim st amountUsd expectedProfitUsd env).2.isKilled = st.isKilled) :
    (canTrade lim st amountUsd expectedProfitUsd env).2.killReason = st.killReason ∧
    (canTrade lim st amountUsd expectedProfitUsd env).2.consecutiveLosses =
      st.consecutiveLosses ∧
    (canTrade lim st amountUsd expectedProfitUsd env).2.lastTradeTime = st.lastTradeTime ∧
    (canTrade lim st amountUsd expectedProfitUsd env).2.lastLossTime = st.lastLossTime ∧
    ((canTrade lim st amountUsd expectedProfitUsd env).2.dailyPnl = st.dailyPnl ∨
      env.dbDailyPnl = some ((canTrade lim st amountUsd expectedProfitUsd env).2.dailyPnl)) ∧
    ((canTrade lim st amountUsd expectedProfitUsd env).2.tradesInLastHour =
        st.tradesInLastHour ∨
      env.dbTradesInLastHour =
        some ((canTrade lim st amountUsd expectedProfitUsd env).2.tradesInLastHour)) ∧
    (env.dbDailyPnl = none → env.dbTradesInLastHour = none →
      (canTrade lim st amountUsd expectedProfitUsd env).2 = st) := by
  by_cases hk : st.isKilled
  · have hc : canTrade lim st amountUsd expectedProfitUsd env = (false, st) := by
      unfold canTrade
      rw [if_pos hk]
    rw [hc]
    simp
  · obtain ⟨d1, d2, d3, d4, d5, d6⟩ := updateDailyPnl_frame st env
    rcases canTrade_snd_cases lim st amountUsd expectedProfitUsd env with hc | hc | hc | hc
    · rw [hc]
      simp
    · rw [hc] at h2
      simp only [killSwitch] at h2
      exact absurd h2.symm hk
    · rw [hc]
      exact ⟨d1, d2, d3, d4, d5, Or.inl d6, fun hp _ => updateDailyPnl_none st env hp⟩
    · obtain ⟨c1, c2, c3, c4, c5, c6⟩ := updateTradeCount_frame (updateDailyPnl st env) env
      rw [hc]
      refine ⟨c1.trans d1, c2.trans d2, c3.trans d3, c4.trans d4, ?_, ?_, ?_⟩
      · rcases d5 with h | h
        · exact Or.inl (c5.trans h)
        · exact Or.inr (by rw [c5]; exact h)
      · rcases c6 with h | h
        · exact Or.inl (h.trans d6)
        · exact Or.inr h
      · intro hp hc'
        rw [updateTradeCount_none _ _ hc', updateDailyPnl_none _ _ hp]

/-- C4 witness: the frame property evaluated on a call rejected by the
consecutive-losses guard with both database queries failing. -/
theorem canTrade_reject_frame_witness :
    (canTrade (mkLimits 100 1000) { initialRiskState with consecutiveLosses := 5 } 10 0
        ⟨0, none, none⟩).1 = false ∧
    (canTrade (mkLimits 100 1000) { initialRiskState with consecutiveLosses := 5 } 10 0
        ⟨0, none, none⟩).2.isKilled =
      ({ initialRiskState with consecutiveLosses := 5 } : RiskState).isKilled ∧
    ((canTrade (mkLimits 100 1000) { initialRiskState with consecutiveLosses := 5 } 10 0
        ⟨0, none, none⟩).2.killReason =
      ({ initialRiskState with consecutiveLosses := 5 } : RiskState).killReason ∧
    (canTrade (mkLimits 100 1000) { initialRiskState with consecutiveLosses := 5 } 10 0
        ⟨0, none, none⟩).2.consecutiveLosses =
      ({ initialRiskState with consecutiveLosses := 5 } : RiskState).consecutiveLosses ∧
    (canTrade (mkLimits 100 1000) { initialRiskState with consecutiveLosses := 5 } 10 0
        ⟨0, none, none⟩).2.lastTradeTime =
      ({ initialRiskState with consecutiveLosses := 5 } : RiskState).lastTradeTime ∧
    (canTrade (mkLimits 100 1000) { initialRiskState with consecutiveLosses := 5 } 10 0
        ⟨0, none, none⟩).2.lastLossTime =
      ({ initialRiskState with consecutiveLosses := 5 } : RiskState).lastLossTime ∧
    ((canTrade (mkLimits 100 1000) { initialRiskState with consecutiveLosses := 5 } 10 0
        ⟨0, none, none⟩).2.dailyPnl =
        ({ initialRiskState with consecutiveLosses := 5 } : RiskState).dailyPnl ∨
      (⟨0, none, none⟩ : CanTradeEnv).dbDailyPnl =
        some ((canTrade (mkLimits 100 1000)
          { initialRiskState with consecutiveLosses := 5 } 10 0 ⟨0, none, none⟩).2.dailyPnl)) ∧
    ((canTrade (mkLimits 100 1000) { initialRiskState with consecutiveLosses := 5 } 10 0
        ⟨0, none, none⟩).2.tradesInLastHour =
        ({ initialRiskState with consecutiveLosses := 5 } : RiskState).tradesInLastHour ∨
      (⟨0, none, none⟩ : CanTradeEnv).dbTradesInLastHour =
        some ((canTrade (mkLimits 100 1000)
          { initialRiskState with consecutiveLosses := 5 } 10 0
          ⟨0, none, none⟩).2.tradesInLastHour)) ∧
    ((⟨0, none, none⟩ : CanTradeEnv).dbDailyPnl = none →
      (⟨0, none, none⟩ : CanTradeEnv).dbTradesInLastHour = none →
      (canTrade (mkLimits 100 1000) { initialRiskState with consecutiveLosses := 5 } 10 0
          ⟨0, none, none⟩).2 =
        { initialRiskState with consecutiveLosses := 5 })) :=
  ⟨by norm_num [canTrade, mkLimits, initialRiskState, updateDailyPnl, updateTradeCount,
      inCooldown, tooSoonSinceLastTrade],
   by norm_num [canTrade, mkLimits, initialRiskState, updateDailyPnl, updateTradeCount,
      inCooldown, tooSoonSinceLastTrade],
   canTrade_reject_frame (mkLimits 100 1000)
     { initialRiskState with consecutiveLosses := 5 } 10 0 ⟨0, none, none⟩
     (by norm_num [canTrade, mkLimits, initialRiskState, updateDailyPnl, updateTradeCount,
        inCooldown, tooSoonSinceLastTrade])
     (by norm_num [canTrade, mkLimits, initialRiskState, updateDailyPnl, updateTradeCount,
        inCooldown, tooSoonSinceLastTrade])⟩

end DefiBot
